import Mathlib

/-!
Verification of the accessibility preference engine of
`src/js/accessibility.js` (electroparts_Store).

The development shallowly embeds the relevant parts of the source:
* a JSON value model for the persisted preference record
  (`savePrefs` / `loadPrefs` / the `Object.assign` merge at page load),
* a state machine for the panel controller and action dispatcher
  (the delegated click handler),
* a state machine for the narration subsystem (`enableReader`,
  `speak`, `stopSpeech`, focus/hover events),
* the live-region announcement channel (`announce`),
* the label extraction (`getLabel`, `readerFocus`).

JS integers are modelled as `Int`, JS strings as `String`; storage is
a sum type distinguishing an absent slot, unparseable content, and a
parsed JSON value.  `JSON.stringify` followed by `JSON.parse` is the
identity on the values that occur here, so a successful `savePrefs`
stores the JSON value itself.
-/

/-! ## JSON value model and the preference store -/

/-- A JSON value, as produced by `JSON.parse`.  Numbers in the record are
integers, so they are modelled by `Int`. -/
inductive Json where
  | jnull
  | jbool (b : Bool)
  | jnum (n : Int)
  | jstr (s : String)
  | jobj (fields : List (String × Json))

/-- JS truthiness of a parsed JSON value (`v || {}` keeps `v` iff truthy). -/
def truthyJ : Json → Bool
  | .jnull => false
  | .jbool b => b
  | .jnum n => n != 0
  | .jstr s => s != ""
  | .jobj _ => true

/-- The own enumerable properties a value contributes as a source of
`Object.assign`: an object contributes its fields, a string its indexed
characters, primitives contribute nothing. -/
def assignFields : Json → List (String × Json)
  | .jobj fs => fs
  | .jstr s => s.data.enum.map (fun ic => (toString ic.1, Json.jstr (String.singleton ic.2)))
  | _ => []

/-- Property assignment `target[k] = v`: overwrite in place if the key
exists, otherwise append (JS property insertion order). -/
def objSet (l : List (String × Json)) (k : String) (v : Json) : List (String × Json) :=
  match l with
  | [] => [(k, v)]
  | (k₁, v₁) :: t => if k₁ = k then (k₁, v) :: t else (k₁, v₁) :: objSet t k v

/-- `Object.assign(target, source)`: copy every source field into the
target in order. -/
def objAssign (tgt : List (String × Json)) (src : List (String × Json)) :
    List (String × Json) :=
  src.foldl (fun acc kv => objSet acc kv.1 kv.2) tgt

/-- Property read `obj[k]` (first binding; bindings are unique in objects
produced by `JSON.parse` and by `objSet`). -/
def objGet (l : List (String × Json)) (k : String) : Option Json :=
  (l.find? (fun kv => kv.1 == k)).map (fun kv => kv.2)

/-- The `defaults` object literal of the source (lines 202-210). -/
def defaultsJ : List (String × Json) :=
  [("fontScale", .jnum 0), ("contrast", .jstr "normal"), ("spacing", .jbool false),
   ("dyslexia", .jbool false), ("highlightLinks", .jbool false),
   ("bigCursor", .jbool false), ("readerEnabled", .jbool false)]

/-- State of the `ep_a11y` storage slot: absent (`getItem` returns null),
present but not parseable JSON, or parsed to a JSON value. -/
inductive StorageSt where
  | absent
  | corrupt
  | stored (j : Json)

/-- `loadPrefs` (source lines 195-197): `JSON.parse(getItem(...)) || {}`,
with parse failures caught and mapped to `{}`.  An absent slot parses to
`null`, which is falsy, hence also `{}`. -/
def loadPrefs : StorageSt → Json
  | .absent => .jobj []
  | .corrupt => .jobj []
  | .stored j => if truthyJ j then j else .jobj []

/-- `savePrefs` (source lines 192-194): overwrite the slot with the
serialized record (successful write; failures are swallowed and leave
the slot unchanged, which no claim here depends on). -/
def savePrefs (p : Json) (_ : StorageSt) : StorageSt :=
  .stored p

/-- The merged record built at page load (source line 212):
`Object.assign({}, defaults, loadPrefs())`. -/
def mergedPrefs (st : StorageSt) : List (String × Json) :=
  objAssign (objAssign [] defaultsJ) (assignFields (loadPrefs st))

/-- A full preference record object with the seven schema fields, in the
declaration order of `defaults`. -/
def mkRecord (s : Int) (c : String) (b₁ b₂ b₃ b₄ b₅ : Bool) : Json :=
  .jobj [("fontScale", .jnum s), ("contrast", .jstr c), ("spacing", .jbool b₁),
         ("dyslexia", .jbool b₂), ("highlightLinks", .jbool b₃),
         ("bigCursor", .jbool b₄), ("readerEnabled", .jbool b₅)]

/-- The four legal contrast modes (source line 204 comment and the four
panel buttons). -/
def contrastVals : List String := ["normal", "high", "dark", "invert"]

/-- Validity of the two constrained fields of a record. -/
def validRec (s : Int) (c : String) : Prop :=
  -2 ≤ s ∧ s ≤ 2 ∧ c ∈ contrastVals

/-- The documented record invariant, read off a merged field list. -/
def prefsInvJson (l : List (String × Json)) : Prop :=
  (∃ n : Int, objGet l "fontScale" = some (.jnum n) ∧ -2 ≤ n ∧ n ≤ 2) ∧
  (∃ c : String, objGet l "contrast" = some (.jstr c) ∧ c ∈ contrastVals)

/-! ## Panel controller and action dispatcher -/

/-- The in-memory preference record as the dispatch handler uses it
(`prefs.fontScale`, `prefs.contrast`, ...).  `contrast` is a plain string,
as in the source. -/
structure Prefs where
  fontScale : Int
  contrast : String
  spacing : Bool
  dyslexia : Bool
  highlightLinks : Bool
  bigCursor : Bool
  readerEnabled : Bool
deriving DecidableEq

/-- The `defaults` record (source lines 202-210), structured view. -/
def defaultsP : Prefs :=
  ⟨0, "normal", false, false, false, false, false⟩

/-- JS `String(b)` / template interpolation of a boolean. -/
def jsBoolStr (b : Bool) : String := if b then "true" else "false"

/-- Rendered state of one boolean toggle control: the `is-active` class,
the `aria-pressed` attribute value, and the `.a11y-toggle-label` text. -/
structure ToggleUI where
  isActive : Bool
  ariaPressed : String
  label : String
deriving DecidableEq

/-- `buildToggle` (source lines 323-329): the toggle markup rendered for
a boolean value. -/
def buildToggle (active : Bool) : ToggleUI :=
  ⟨active, jsBoolStr active, if active then "Activado" else "Desactivado"⟩

/-- The in-place patch the dispatch handler applies to a toggle button
(`classList.toggle`, setting the aria-pressed attribute, label text;
e.g. source lines 524-526). -/
def patchToggle (v : Bool) : ToggleUI :=
  ⟨v, jsBoolStr v, if v then "Activado" else "Desactivado"⟩

/-- Rendered state of one contrast-mode button. -/
structure CBtn where
  key : String
  isActive : Bool
  ariaPressed : String
deriving DecidableEq

/-- `fontLabel` (source lines 315-318). -/
def fontLabel (s : Int) : String :=
  if s = 0 then "Normal (100%)"
  else (if 0 < s then "+" else "") ++ toString (s * 10) ++ "% (" ++
    toString (100 + s * 10) ++ "%)"

/-- Rendered state of the panel controls the dispatcher touches. -/
structure PanelUI where
  readerT : ToggleUI
  spacingT : ToggleUI
  dyslexiaT : ToggleUI
  linksT : ToggleUI
  cursorT : ToggleUI
  contrastBtns : List CBtn
  fontIncDisabled : Bool
  fontDecDisabled : Bool
  fontValText : String
deriving DecidableEq

/-- The panel markup `buildPanel` produces from the current record
(source lines 331-479): each toggle via `buildToggle`, the four contrast
buttons active iff their key equals `prefs.contrast`, the steppers
disabled at the clamp bounds, the readout showing `fontLabel`. -/
def buildPanelUI (p : Prefs) : PanelUI where
  readerT := buildToggle p.readerEnabled
  spacingT := buildToggle p.spacing
  dyslexiaT := buildToggle p.dyslexia
  linksT := buildToggle p.highlightLinks
  cursorT := buildToggle p.bigCursor
  contrastBtns := contrastVals.map (fun k =>
    ⟨k, p.contrast == k, jsBoolStr (p.contrast == k)⟩)
  fontIncDisabled := decide (2 ≤ p.fontScale)
  fontDecDisabled := decide (p.fontScale ≤ -2)
  fontValText := fontLabel p.fontScale

/-- Presentation state of the document root touched by the effect
appliers (source lines 218-243).  `html.style.fontSize` is
`(1 + s*0.1)` rem, which is injective in `s`, so the applied scale
`s` itself is stored. -/
structure RootDom where
  fontScaleApplied : Int
  contrastAttr : String
  spacingClass : Bool
  dyslexiaClass : Bool
  highlightClass : Bool
  bigCursorClass : Bool
deriving DecidableEq

/-- `applyAll` (source lines 236-243) composed over a root state. -/
def applyAllDom (p : Prefs) (_ : RootDom) : RootDom :=
  ⟨p.fontScale, p.contrast, p.spacing, p.dyslexia, p.highlightLinks, p.bigCursor⟩

/-- The `data-value` of a contrast button: the four buttons built into the
panel are the only `[data-action="contrast"]` elements. -/
inductive CVal where
  | normal | high | dark | invert
deriving DecidableEq

/-- The `data-value` string of a contrast button. -/
def CVal.key : CVal → String
  | .normal => "normal"
  | .high => "high"
  | .dark => "dark"
  | .invert => "invert"

/-- The `data-action` tags handled by the panel click delegation
(source lines 514-593). -/
inductive PAction where
  | reader
  | fontInc
  | fontDec
  | contrastA (v : CVal)
  | spacingA
  | dyslexiaA
  | linksA
  | cursorA
  | reset
deriving DecidableEq

/-- Whole-system state driven by the panel: the record, the rendered
panel controls, the root presentation, the persisted copy, the panel
open flag, and whether the current panel element carries the delegated
click listener (attached once at source line 514; reset rebuilds the
panel without re-attaching it). -/
structure SysState where
  prefs : Prefs
  ui : PanelUI
  dom : RootDom
  store : Option Prefs
  panelOpen : Bool
  listenerAttached : Bool
deriving DecidableEq

/-- `updateFontUI` (source lines 595-602). -/
def updateFontUI (p : Prefs) (ui : PanelUI) : PanelUI :=
  { ui with
    fontIncDisabled := decide (2 ≤ p.fontScale),
    fontDecDisabled := decide (p.fontScale ≤ -2),
    fontValText := fontLabel p.fontScale }

/-- The body of the delegated click handler for a `data-action` control
(source lines 520-592), state-passing form.  Narration side effects
(`enableReader`) are modelled by the separate narration machine. -/
def dispatch (a : PAction) (st : SysState) : SysState :=
  match a with
  | .reader =>
    let p := { st.prefs with readerEnabled := !st.prefs.readerEnabled }
    { st with
      prefs := p,
      ui := { st.ui with readerT := patchToggle p.readerEnabled },
      store := some p }
  | .fontInc =>
    if 2 ≤ st.prefs.fontScale then st
    else
      let p := { st.prefs with fontScale := st.prefs.fontScale + 1 }
      { st with
        prefs := p,
        dom := { st.dom with fontScaleApplied := p.fontScale },
        ui := updateFontUI p st.ui,
        store := some p }
  | .fontDec =>
    if st.prefs.fontScale ≤ -2 then st
    else
      let p := { st.prefs with fontScale := st.prefs.fontScale - 1 }
      { st with
        prefs := p,
        dom := { st.dom with fontScaleApplied := p.fontScale },
        ui := updateFontUI p st.ui,
        store := some p }
  | .contrastA v =>
    let p := { st.prefs with contrast := v.key }
    { st with
      prefs := p,
      dom := { st.dom with contrastAttr := p.contrast },
      ui := { st.ui with contrastBtns := st.ui.contrastBtns.map (fun b =>
        { b with
          isActive := b.key == p.contrast,
          ariaPressed := jsBoolStr (b.key == p.contrast) }) },
      store := some p }
  | .spacingA =>
    let p := { st.prefs with spacing := !st.prefs.spacing }
    { st with
      prefs := p,
      ui := { st.ui with spacingT := patchToggle p.spacing },
      dom := { st.dom with spacingClass := p.spacing },
      store := some p }
  | .dyslexiaA =>
    let p := { st.prefs with dyslexia := !st.prefs.dyslexia }
    { st with
      prefs := p,
      ui := { st.ui with dyslexiaT := patchToggle p.dyslexia },
      dom := { st.dom with dyslexiaClass := p.dyslexia },
      store := some p }
  | .linksA =>
    let p := { st.prefs with highlightLinks := !st.prefs.highlightLinks }
    { st with
      prefs := p,
      ui := { st.ui with linksT := patchToggle p.highlightLinks },
      dom := { st.dom with highlightClass := p.highlightLinks },
      store := some p }
  | .cursorA =>
    let p := { st.prefs with bigCursor := !st.prefs.bigCursor }
    { st with
      prefs := p,
      ui := { st.ui with cursorT := patchToggle p.bigCursor },
      dom := { st.dom with bigCursorClass := p.bigCursor },
      store := some p }
  | .reset =>
    { st with
      prefs := defaultsP,
      dom := applyAllDom defaultsP st.dom,
      store := some defaultsP,
      ui := buildPanelUI defaultsP,
      listenerAttached := false,
      panelOpen := false }

/-- A click the page can receive around the panel: a `data-action`
control, the close button, the floating toggle, or the Escape key. -/
inductive Click where
  | onAction (a : PAction)
  | closeBtn
  | fab
  | escape

/-- One click step.  The delegated handler only runs while the listener
is attached to the current panel element; the floating toggle listener
is re-attached after every rebuild (source line 586) and the Escape
handler is on the document. -/
def click (c : Click) (st : SysState) : SysState :=
  match c with
  | .fab => { st with panelOpen := !st.panelOpen }
  | .escape => if st.panelOpen then { st with panelOpen := false } else st
  | .closeBtn => if st.listenerAttached then { st with panelOpen := false } else st
  | .onAction a => if st.listenerAttached then dispatch a st else st

/-- Run a sequence of clicks. -/
def runClicks (cs : List Click) (st : SysState) : SysState :=
  cs.foldl (fun s c => click c s) st

/-- The state right after page initialization: the record is the merge
result `p₀`, effects applied (line 245), panel built from `p₀`
(line 484), delegation listener attached (line 514), panel closed. -/
def initState (p₀ : Prefs) (store₀ : Option Prefs) : SysState :=
  ⟨p₀, buildPanelUI p₀, applyAllDom p₀ ⟨0, "", false, false, false, false⟩,
   store₀, false, true⟩

/-! ## Narration subsystem -/

/-- The two document listeners the narration subsystem manages
(`focusin` → `readerFocus`, `mouseover` → `readerHover`). -/
inductive LKind where
  | focusL
  | hoverL
deriving DecidableEq

/-- `document.addEventListener` with a fixed callback: a listener already
registered for the same type and callback is not added again. -/
def addListener (k : LKind) (l : List LKind) : List LKind :=
  if k ∈ l then l else l ++ [k]

/-- State of the narration subsystem: the `readerActive` flag, the
attached document listeners, and the platform speech queue
(pending plus in-progress utterances). -/
structure NarrState where
  readerActive : Bool
  listeners : List LKind
  queue : List String
deriving DecidableEq

/-- The onboarding sentence spoken on activation (source line 302). -/
def onboardingMsg : String :=
  "Lector de pantalla activado. Pasa el cursor o navega con Tab para escuchar."

/-- `stopSpeech` (source lines 252-254): cancel every pending and
in-progress utterance when the synthesis service exists. -/
def stopSpeech (synth : Bool) (st : NarrState) : NarrState :=
  if synth then { st with queue := [] } else st

/-- `speak` (source lines 255-263): guarded by `readerActive` unless
forced and by synthesis availability; cancels first, then submits the
new utterance. -/
def speak (synth : Bool) (text : String) (force : Bool) (st : NarrState) : NarrState :=
  if !st.readerActive && !force then st
  else if !synth then st
  else
    let st := stopSpeech synth st
    { st with queue := st.queue ++ [text] }

/-- `enableReader` (source lines 297-308). -/
def enableReaderN (synth : Bool) (flag : Bool) (st : NarrState) : NarrState :=
  let st := { st with readerActive := flag }
  if flag then
    let st := { st with listeners := addListener .hoverL (addListener .focusL st.listeners) }
    speak synth onboardingMsg true st
  else
    let st := stopSpeech synth st
    { st with listeners := (st.listeners.erase .focusL).erase .hoverL }

/-- Events that drive the narration machine: an `enableReader` call, a
focus event (carrying the computed label and category text), and a hover
event (carrying whether a narratable ancestor was found and its label). -/
inductive NarrOp where
  | enable (flag : Bool)
  | focusEv (lbl pfx : String)
  | hoverEv (found : Bool) (lbl : String)

/-- One narration step.  `readerFocus` (lines 280-291) returns before
speaking when the label is empty; `readerHover` (lines 292-295) speaks
only when `closest` found a narratable element.  Speech still passes
through `speak`, whose own `readerActive` guard applies. -/
def narrStep (synth : Bool) (op : NarrOp) (st : NarrState) : NarrState :=
  match op with
  | .enable flag => enableReaderN synth flag st
  | .focusEv lbl pfx => if lbl = "" then st else speak synth (pfx ++ lbl) false st
  | .hoverEv found lbl => if found then speak synth lbl false st else st

/-- Narration state at page load: flag down, no listeners, silent. -/
def narrInit : NarrState := ⟨false, [], []⟩

/-- Run a sequence of narration events. -/
def narrRun (synth : Bool) (ops : List NarrOp) (st : NarrState) : NarrState :=
  ops.foldl (fun s op => narrStep synth op s) st

/-! ## Announcement channel -/

/-- Live-region state: presence of the polite (`notification-area`) and
assertive (`alert-area`) regions, their text, the queued
`requestAnimationFrame` callbacks, and the trace of `textContent`
assignments `(isAlert, old, new)`. -/
structure AnnState where
  notifPresent : Bool
  alertPresent : Bool
  notifText : String
  alertText : String
  pending : List (Bool × String)
  writes : List (Bool × String × String)
deriving DecidableEq

/-- `announce` (source lines 610-615): no-op when the target region is
absent; otherwise clear its text now and schedule setting the new text
at the next animation frame. -/
def announceA (message : String) (isAlert : Bool) (st : AnnState) : AnnState :=
  if isAlert then
    if st.alertPresent then
      { st with
        alertText := "",
        writes := st.writes ++ [(true, st.alertText, "")],
        pending := st.pending ++ [(true, message)] }
    else st
  else
    if st.notifPresent then
      { st with
        notifText := "",
        writes := st.writes ++ [(false, st.notifText, "")],
        pending := st.pending ++ [(false, message)] }
    else st

/-- One queued frame callback: `area.textContent = message`. -/
def runFrameCb (st : AnnState) (cb : Bool × String) : AnnState :=
  if cb.1 then
    { st with
      alertText := cb.2,
      writes := st.writes ++ [(true, st.alertText, cb.2)] }
  else
    { st with
      notifText := cb.2,
      writes := st.writes ++ [(false, st.notifText, cb.2)] }

/-- The next animation frame: run all queued callbacks in order. -/
def frame (st : AnnState) : AnnState :=
  st.pending.foldl runFrameCb { st with pending := [] }

/-- Presence of the live region `announce` targets for a given urgency:
the assertive `alert-area` when urgent, else the polite
`notification-area`. -/
def targetPresent (isAlert : Bool) (st : AnnState) : Bool :=
  if isAlert then st.alertPresent else st.notifPresent

/-- The text of the live region `announce` targets for a given urgency. -/
def targetText (isAlert : Bool) (st : AnnState) : String :=
  if isAlert then st.alertText else st.notifText

/-! ## Label extraction and focus narration -/

/-- JS `String.prototype.trim`: strip whitespace from both ends. -/
def jsTrim (s : String) : String :=
  ⟨((s.data.dropWhile Char.isWhitespace).reverse.dropWhile Char.isWhitespace).reverse⟩

/-- JS `String.prototype.slice(0, n)`. -/
def jsSlice (n : Nat) (s : String) : String :=
  ⟨s.data.take n⟩

/-- JS `String.prototype.toLowerCase` (ASCII tag names). -/
def jsToLower (s : String) : String :=
  ⟨s.data.map Char.toLower⟩

/-- JS `a || b` on strings: `b` when `a` is empty. -/
def jsOr (a b : String) : String :=
  if a = "" then b else a

/-- A DOM element as `getLabel` inspects it: tag name, `id`, attribute
map, text content, and the `placeholder` / `type` properties (empty
string models an absent `placeholder`; `type` reflects the input type,
`"text"` for a plain input). -/
structure Elem where
  tagName : String
  idAttr : String
  attrs : List (String × String)
  textContent : String
  placeholder : String
  typeAttr : String
deriving DecidableEq

/-- `el.getAttribute(k)`: the attribute value, or null when absent. -/
def getAttr (el : Elem) (k : String) : Option String :=
  (el.attrs.find? (fun kv => kv.1 == k)).map (fun kv => kv.2)

/-- JS truthiness of `getAttribute`: non-null and non-empty. -/
def truthyS : Option String → Bool
  | some s => s != ""
  | none => false

/-- The document, as the id and `label[for=...]` lookups see it. -/
def Doc := List Elem

/-- `document.getElementById`. -/
def getElementById (doc : Doc) (i : String) : Option Elem :=
  doc.find? (fun e => e.idAttr == i)

/-- The selector `label[for="<id>"]`. -/
def labelFor (doc : Doc) (i : String) : Option Elem :=
  doc.find? (fun e => e.tagName == "LABEL" && getAttr e "for" == some i)

/-- The tag-specific tail of `getLabel` (source lines 271-277), reached
when neither `aria-label` nor a resolvable `aria-labelledby` applies. -/
def getLabelTail (doc : Doc) (el : Elem) : String :=
  if el.tagName == "IMG" then
    jsOr ((getAttr el "alt").getD "") "imagen"
  else if el.tagName == "INPUT" then
    match labelFor doc el.idAttr with
    | some lbl => jsTrim lbl.textContent
    | none => jsOr el.placeholder (jsOr el.typeAttr "campo")
  else
    jsOr (jsSlice 180 (jsTrim el.textContent)) (jsToLower el.tagName)

/-- `getLabel` (source lines 265-278). -/
def getLabel (doc : Doc) (el : Elem) : String :=
  if truthyS (getAttr el "aria-label") then (getAttr el "aria-label").getD ""
  else if truthyS (getAttr el "aria-labelledby") then
    match getElementById doc ((getAttr el "aria-labelledby").getD "") with
    | some ref => jsTrim ref.textContent
    | none => getLabelTail doc el
  else getLabelTail doc el

/-- The heading digit of a lowercased tag matching `/^h([1-6])$/`. -/
def headingLevel (tag : String) : Option Char :=
  match tag.data with
  | ['h', c] => if '1' ≤ c ∧ c ≤ '6' then some c else none
  | _ => none

/-- `readerFocus` (source lines 280-291), as the utterance text it passes
to `speak`: `none` when the empty-label guard returns early. -/
def readerFocusMsg (doc : Doc) (el : Elem) : Option String :=
  let tag := jsToLower el.tagName
  let label := getLabel doc el
  if label = "" then none
  else
    let pfx :=
      match headingLevel tag with
      | some c => "Encabezado nivel " ++ String.singleton c ++ ": "
      | none =>
        if tag = "a" then "Enlace: "
        else if tag = "button" then "Botón: "
        else if tag = "select" then "Selector: "
        else if tag = "input" then "Campo " ++ el.typeAttr ++ ": "
        else ""
    some (pfx ++ label)

/-! ## Invariant predicates -/

/-- The record invariant on the structured record. -/
def prefsInv (p : Prefs) : Prop :=
  -2 ≤ p.fontScale ∧ p.fontScale ≤ 2 ∧ p.contrast ∈ contrastVals

/-- A rendered toggle agrees with a boolean field: `is-active` class,
`aria-pressed` attribute and visible label all reflect the value. -/
def toggleMatches (t : ToggleUI) (b : Bool) : Prop :=
  t.isActive = b ∧ t.ariaPressed = jsBoolStr b ∧
    t.label = (if b then "Activado" else "Desactivado")

/-- Every boolean control of the panel agrees with its record field. -/
def uiMatches (st : SysState) : Prop :=
  toggleMatches st.ui.readerT st.prefs.readerEnabled ∧
  toggleMatches st.ui.spacingT st.prefs.spacing ∧
  toggleMatches st.ui.dyslexiaT st.prefs.dyslexia ∧
  toggleMatches st.ui.linksT st.prefs.highlightLinks ∧
  toggleMatches st.ui.cursorT st.prefs.bigCursor

/-! ## Helper lemmas -/

theorem foldl_preserves {σ α : Type} (f : σ → α → σ) (P : σ → Prop)
    (hstep : ∀ s a, P s → P (f s a)) :
    ∀ (l : List α) (s : σ), P s → P (l.foldl f s) := by
  intro l
  induction l with
  | nil => intro s hs; exact hs
  | cons a t ih => intro s hs; exact ih _ (hstep s a hs)

theorem objGet_cons (hd : String × Json) (t : List (String × Json)) (k : String) :
    objGet (hd :: t) k = if hd.1 = k then some hd.2 else objGet t k := by
  by_cases h : hd.1 = k
  · rw [if_pos h]
    unfold objGet
    rw [List.find?_cons_of_pos _ (by simp [h])]
    rfl
  · rw [if_neg h]
    unfold objGet
    rw [List.find?_cons_of_neg _ (by simp [h])]

theorem objGet_objSet_self (l : List (String × Json)) (k : String) (v : Json) :
    objGet (objSet l k v) k = some v := by
  induction l with
  | nil => simp [objSet, objGet_cons]
  | cons hd t ih =>
    by_cases h : hd.1 = k
    · simp [objSet, h, objGet_cons]
    · simp [objSet, h, objGet_cons, ih]

theorem objGet_objSet_of_ne (l : List (String × Json)) {k k' : String} (v : Json)
    (h : k' ≠ k) : objGet (objSet l k' v) k = objGet l k := by
  induction l with
  | nil => simp [objSet, objGet_cons, objGet, h]
  | cons hd t ih =>
    by_cases h1 : hd.1 = k'
    · simp [objSet, h1, objGet_cons, h]
    · simp [objSet, h1, objGet_cons, ih]

theorem isSome_objGet_objAssign (src : List (String × Json))
    (l : List (String × Json)) (k : String) (h : (objGet l k).isSome = true) :
    (objGet (objAssign l src) k).isSome = true := by
  induction src generalizing l with
  | nil => exact h
  | cons hd t ih =>
    show (objGet (objAssign (objSet l hd.1 hd.2) t) k).isSome = true
    apply ih
    by_cases hk : hd.1 = k
    · rw [hk, objGet_objSet_self]; rfl
    · rw [objGet_objSet_of_ne _ _ hk]; exact h

theorem isSome_objGet_objAssign_of_mem (src : List (String × Json))
    (l : List (String × Json)) (k : String) (v : Json) (h : (k, v) ∈ src) :
    (objGet (objAssign l src) k).isSome = true := by
  induction src generalizing l with
  | nil => cases h
  | cons hd t ih =>
    rcases List.mem_cons.mp h with h1 | h2
    · have hk : hd.1 = k := by rw [← h1]
      show (objGet (objAssign (objSet l hd.1 hd.2) t) k).isSome = true
      apply isSome_objGet_objAssign
      rw [hk, objGet_objSet_self]
      rfl
    · exact ih _ h2

/-! ## Claims -/

/-- C3: for every valid record (all seven fields present, `fontScale`
in `[-2,2]`, `contrast` one of the four modes), `savePrefs` followed by
`loadPrefs` merged with `defaults` yields the record back unchanged, and
the merge over an absent or unparseable slot is exactly the default
record (and `loadPrefs` is total, hence never raises). -/
theorem save_load_roundtrip (st : StorageSt) (s : Int) (c : String)
    (b₁ b₂ b₃ b₄ b₅ : Bool) (h : validRec s c) :
    Json.jobj (mergedPrefs (savePrefs (mkRecord s c b₁ b₂ b₃ b₄ b₅) st))
      = mkRecord s c b₁ b₂ b₃ b₄ b₅ ∧
    mergedPrefs .absent = defaultsJ ∧
    mergedPrefs .corrupt = defaultsJ :=
  ⟨rfl, rfl, rfl⟩

theorem toggleMatches_build (b : Bool) : toggleMatches (buildToggle b) b :=
  ⟨rfl, rfl, rfl⟩

theorem uiMatches_dispatch (a : PAction) (st : SysState) (h : uiMatches st) :
    uiMatches (dispatch a st) := by
  obtain ⟨hr, hs, hd, hl, hc⟩ := h
  cases a with
  | reader => exact ⟨⟨rfl, rfl, rfl⟩, hs, hd, hl, hc⟩
  | fontInc =>
    simp only [dispatch]
    split
    · exact ⟨hr, hs, hd, hl, hc⟩
    · exact ⟨hr, hs, hd, hl, hc⟩
  | fontDec =>
    simp only [dispatch]
    split
    · exact ⟨hr, hs, hd, hl, hc⟩
    · exact ⟨hr, hs, hd, hl, hc⟩
  | contrastA v => exact ⟨hr, hs, hd, hl, hc⟩
  | spacingA => exact ⟨hr, ⟨rfl, rfl, rfl⟩, hd, hl, hc⟩
  | dyslexiaA => exact ⟨hr, hs, ⟨rfl, rfl, rfl⟩, hl, hc⟩
  | linksA => exact ⟨hr, hs, hd, ⟨rfl, rfl, rfl⟩, hc⟩
  | cursorA => exact ⟨hr, hs, hd, hl, ⟨rfl, rfl, rfl⟩⟩
  | reset =>
    exact ⟨toggleMatches_build false, toggleMatches_build false, toggleMatches_build false,
           toggleMatches_build false, toggleMatches_build false⟩

theorem uiMatches_click (c : Click) (st : SysState) (h : uiMatches st) :
    uiMatches (click c st) := by
  cases c with
  | fab => exact h
  | escape =>
    simp only [click]
    split
    · exact h
    · exact h
  | closeBtn =>
    simp only [click]
    split
    · exact h
    · exact h
  | onAction a =>
    simp only [click]
    split
    · exact uiMatches_dispatch a st h
    · exact h

/-- C2: for every initial record and every sequence of clicks — clicks
on `data-action` controls (dispatches), the close button, the floating
toggle and Escape, in particular sequences containing a reset followed
by further toggle clicks — for each boolean control the rendered `is-active`
class, `aria-pressed` attribute and Activado/Desactivado label equal
the corresponding record field after every step.  (After a reset the
rebuilt panel carries no delegation listener, so later control clicks do
not dispatch; they leave record and rendering unchanged and the
correspondence still holds.) -/
theorem toggles_match_record (p₀ : Prefs) (s₀ : Option Prefs) (cs : List Click) :
    uiMatches (runClicks cs (initState p₀ s₀)) := by
  unfold runClicks
  apply foldl_preserves _ uiMatches (fun s c hs => uiMatches_click c s hs) cs
  exact ⟨toggleMatches_build _, toggleMatches_build _, toggleMatches_build _,
         toggleMatches_build _, toggleMatches_build _⟩

/-- C6: with `fontScale` in `[-2,2]`, `font-inc` at the upper bound and
`font-dec` at the lower bound leave the whole state unchanged (record,
applied root font size, rendered panel and persisted copy — the handler
returns before saving); away from the bound they change `fontScale` by
exactly one, apply the root font-size effect, and refresh the
disabled state of both steppers and the readout text. -/
theorem font_stepper_clamped (st : SysState)
    (h : -2 ≤ st.prefs.fontScale ∧ st.prefs.fontScale ≤ 2) :
    (st.prefs.fontScale = 2 → dispatch .fontInc st = st) ∧
    (st.prefs.fontScale = -2 → dispatch .fontDec st = st) ∧
    (st.prefs.fontScale < 2 →
      (dispatch .fontInc st).prefs.fontScale = st.prefs.fontScale + 1 ∧
      (dispatch .fontInc st).dom.fontScaleApplied = st.prefs.fontScale + 1 ∧
      (dispatch .fontInc st).ui.fontIncDisabled = decide (2 ≤ st.prefs.fontScale + 1) ∧
      (dispatch .fontInc st).ui.fontDecDisabled = decide (st.prefs.fontScale + 1 ≤ -2) ∧
      (dispatch .fontInc st).ui.fontValText = fontLabel (st.prefs.fontScale + 1)) ∧
    (-2 < st.prefs.fontScale →
      (dispatch .fontDec st).prefs.fontScale = st.prefs.fontScale - 1 ∧
      (dispatch .fontDec st).dom.fontScaleApplied = st.prefs.fontScale - 1 ∧
      (dispatch .fontDec st).ui.fontIncDisabled = decide (2 ≤ st.prefs.fontScale - 1) ∧
      (dispatch .fontDec st).ui.fontDecDisabled = decide (st.prefs.fontScale - 1 ≤ -2) ∧
      (dispatch .fontDec st).ui.fontValText = fontLabel (st.prefs.fontScale - 1)) := by
  obtain ⟨hlo, hhi⟩ := h
  refine ⟨?_, ?_, ?_, ?_⟩
  · intro h2
    show (if 2 ≤ st.prefs.fontScale then st else _) = st
    rw [if_pos (by omega)]
  · intro h2
    show (if st.prefs.fontScale ≤ -2 then st else _) = st
    rw [if_pos (by omega)]
  · intro hlt
    have hg : ¬ 2 ≤ st.prefs.fontScale := by omega
    simp only [dispatch, if_neg hg]
    refine ⟨?_, ?_, ?_, ?_, ?_⟩ <;> first | rfl | trivial
  · intro hgt
    have hg : ¬ st.prefs.fontScale ≤ -2 := by omega
    simp only [dispatch, if_neg hg]
    refine ⟨?_, ?_, ?_, ?_, ?_⟩ <;> first | rfl | trivial

/-- Witness for C6 at the upper clamp bound (`fontScale = 2`): the
increment click is a complete no-op. -/
theorem font_stepper_clamped_witness :
    dispatch .fontInc (initState ⟨2, "normal", false, false, false, false, false⟩ none)
      = initState ⟨2, "normal", false, false, false, false, false⟩ none :=
  (font_stepper_clamped (initState ⟨2, "normal", false, false, false, false, false⟩ none)
    ⟨by decide, by decide⟩).1 rfl

/-- C7: for every `fontScale` in `[-2,2]` the readout text displays the
percentage `100 + fontScale*10` (it ends in `(pct%)`), and the two
increments from 0 show exactly the texts of the scenario. -/
theorem fontLabel_percentage (s : Int) (h : -2 ≤ s ∧ s ≤ 2) :
    (∃ pre, fontLabel s = pre ++ "(" ++ toString (100 + s * 10) ++ "%)") ∧
    fontLabel 1 = "+10% (110%)" ∧ fontLabel 2 = "+20% (120%)" := by
  refine ⟨?_, by decide, by decide⟩
  obtain ⟨h1, h2⟩ := h
  interval_cases s
  · exact ⟨"-20% ", by decide⟩
  · exact ⟨"-10% ", by decide⟩
  · exact ⟨"Normal ", by decide⟩
  · exact ⟨"+10% ", by decide⟩
  · exact ⟨"+20% ", by decide⟩

/-- Witness for C7 at `fontScale = 1`. -/
theorem fontLabel_percentage_witness :
    (-2 ≤ (1 : Int) ∧ (1 : Int) ≤ 2) ∧
    ((∃ pre, fontLabel 1 = pre ++ "(" ++ toString (100 + (1 : Int) * 10) ++ "%)") ∧
     fontLabel 1 = "+10% (110%)" ∧ fontLabel 2 = "+20% (120%)") :=
  ⟨⟨by decide, by decide⟩, fontLabel_percentage 1 ⟨by decide, by decide⟩⟩

theorem stopSpeech_listeners (synth : Bool) (s : NarrState) :
    (stopSpeech synth s).listeners = s.listeners := by
  unfold stopSpeech
  split
  · rfl
  · rfl

theorem speak_listeners (synth : Bool) (t : String) (f : Bool) (s : NarrState) :
    (speak synth t f s).listeners = s.listeners := by
  unfold speak
  split
  · rfl
  · split
    · rfl
    · exact stopSpeech_listeners synth s

theorem speak_readerActive (synth : Bool) (t : String) (f : Bool) (s : NarrState) :
    (speak synth t f s).readerActive = s.readerActive := by
  unfold speak
  split
  · rfl
  · split
    · rfl
    · show (stopSpeech synth s).readerActive = s.readerActive
      unfold stopSpeech
      split
      · rfl
      · rfl

theorem mem_addListener_self (k : LKind) (l : List LKind) : k ∈ addListener k l := by
  unfold addListener
  split
  · assumption
  · simp

theorem mem_addListener_of_mem {x : LKind} (k : LKind) {l : List LKind} (h : x ∈ l) :
    x ∈ addListener k l := by
  unfold addListener
  split
  · exact h
  · simp [h]

theorem narr_queue_step (synth : Bool) (op : NarrOp) (st : NarrState)
    (h : st.queue.length ≤ 1 ∧ (synth = false → st.queue = [])) :
    (narrStep synth op st).queue.length ≤ 1 ∧
      (synth = false → (narrStep synth op st).queue = []) := by
  obtain ⟨h1, h2⟩ := h
  cases synth with
  | false =>
    have hq : st.queue = [] := h2 rfl
    cases op with
    | enable flag =>
      cases flag <;> simp [narrStep, enableReaderN, speak, stopSpeech, hq]
    | focusEv lbl pfx =>
      by_cases hl : lbl = "" <;> simp [narrStep, speak, stopSpeech, hl, hq]
    | hoverEv found lbl =>
      cases found <;> simp [narrStep, speak, stopSpeech, hq]
  | true =>
    cases op with
    | enable flag =>
      cases flag <;> simp [narrStep, enableReaderN, speak, stopSpeech]
    | focusEv lbl pfx =>
      by_cases hl : lbl = ""
      · simpa [narrStep, hl] using h1
      · simp only [narrStep, if_neg hl]
        unfold speak stopSpeech
        split
        · exact ⟨h1, fun hc => Bool.noConfusion hc⟩
        · simp
    | hoverEv found lbl =>
      cases found with
      | false => exact ⟨h1, fun hc => Bool.noConfusion hc⟩
      | true =>
        simp only [narrStep, if_pos]
        unfold speak stopSpeech
        split
        · exact ⟨h1, fun hc => Bool.noConfusion hc⟩
        · simp

/-- C5: in every state of the narration machine reachable by any
sequence of `enableReader` calls and focus/hover events, the platform
speech queue holds at most one utterance (each `speak` cancels before
submitting; nothing queues), and deactivation (`enableReader(false)`)
cancels the in-flight utterance, leaving the queue empty. -/
theorem narration_latest_wins (synth : Bool) (ops : List NarrOp) :
    (narrRun synth ops narrInit).queue.length ≤ 1 ∧
    (narrStep synth (.enable false) (narrRun synth ops narrInit)).queue = [] := by
  have hinv : (narrRun synth ops narrInit).queue.length ≤ 1 ∧
      (synth = false → (narrRun synth ops narrInit).queue = []) := by
    unfold narrRun
    exact foldl_preserves _
      (fun s => s.queue.length ≤ 1 ∧ (synth = false → s.queue = []))
      (fun s op hp => narr_queue_step synth op s hp) ops narrInit
      ⟨by simp [narrInit], fun _ => rfl⟩
  obtain ⟨h1, h2⟩ := hinv
  refine ⟨h1, ?_⟩
  cases synth with
  | false =>
    have hq := h2 rfl
    simp [narrStep, enableReaderN, stopSpeech, hq]
  | true => simp [narrStep, enableReaderN, stopSpeech]

theorem narr_listeners_step (synth : Bool) (op : NarrOp) (st : NarrState)
    (h : st.listeners = [] ∨ st.listeners = [.focusL, .hoverL]) :
    (narrStep synth op st).listeners = [] ∨
      (narrStep synth op st).listeners = [.focusL, .hoverL] := by
  cases op with
  | enable flag =>
    cases flag with
    | true =>
      simp only [narrStep, enableReaderN, if_true, if_false]
      rw [speak_listeners]
      rcases h with h | h <;> simp [h, addListener]
    | false =>
      simp only [narrStep, enableReaderN, if_true, if_false]
      rw [stopSpeech_listeners]
      rcases h with h | h <;> simp [h]
  | focusEv lbl pfx =>
    by_cases hl : lbl = ""
    · simpa [narrStep, hl] using h
    · simp only [narrStep, if_neg hl]
      rw [speak_listeners]
      exact h
  | hoverEv found lbl =>
    cases found with
    | false => exact h
    | true =>
      simp only [narrStep, if_pos]
      rw [speak_listeners]
      exact h

theorem narr_listeners_reachable (synth : Bool) (ops : List NarrOp) :
    (narrRun synth ops narrInit).listeners = [] ∨
      (narrRun synth ops narrInit).listeners = [.focusL, .hoverL] := by
  unfold narrRun
  exact foldl_preserves _
    (fun s => s.listeners = [] ∨ s.listeners = [.focusL, .hoverL])
    (fun s op hp => narr_listeners_step synth op s hp) ops narrInit (Or.inl rfl)

theorem addListener_of_mem {k : LKind} {l : List LKind} (h : k ∈ l) :
    addListener k l = l := by
  unfold addListener
  rw [if_pos h]

theorem enableT_idem (synth : Bool) (st : NarrState) :
    enableReaderN synth true (enableReaderN synth true st)
      = enableReaderN synth true st := by
  have hL : ∀ l : List LKind,
      addListener .hoverL (addListener .focusL
        (addListener .hoverL (addListener .focusL l)))
      = addListener .hoverL (addListener .focusL l) := by
    intro l
    have hf : LKind.focusL ∈ addListener .hoverL (addListener .focusL l) :=
      mem_addListener_of_mem _ (mem_addListener_self _ _)
    have hh : LKind.hoverL ∈ addListener .hoverL (addListener .focusL l) :=
      mem_addListener_self _ _
    rw [addListener_of_mem hf, addListener_of_mem hh]
  cases synth with
  | false => simp [enableReaderN, speak, stopSpeech, hL]
  | true => simp [enableReaderN, speak, stopSpeech, hL]

theorem enableF_idem (synth : Bool) (st : NarrState)
    (h : st.listeners = [] ∨ st.listeners = [.focusL, .hoverL]) :
    enableReaderN synth false (enableReaderN synth false st)
      = enableReaderN synth false st := by
  cases synth with
  | false =>
    rcases h with h | h <;> simp [enableReaderN, stopSpeech, h]
  | true =>
    rcases h with h | h <;> simp [enableReaderN, stopSpeech, h]

/-- C8: from any reachable narration state, activating twice in a row
yields the same state as activating once (no duplicate listener
attachment) and leaves exactly the one focus+hover listener pair
attached; deactivating twice in a row equals deactivating once (safe,
total — no double-cancel error) and leaves no listeners attached. -/
theorem reader_toggle_idempotent (synth : Bool) (ops : List NarrOp) :
    narrStep synth (.enable true) (narrStep synth (.enable true) (narrRun synth ops narrInit))
      = narrStep synth (.enable true) (narrRun synth ops narrInit) ∧
    narrStep synth (.enable false) (narrStep synth (.enable false) (narrRun synth ops narrInit))
      = narrStep synth (.enable false) (narrRun synth ops narrInit) ∧
    (narrStep synth (.enable true) (narrRun synth ops narrInit)).listeners
      = [.focusL, .hoverL] ∧
    (narrStep synth (.enable false) (narrRun synth ops narrInit)).listeners = [] := by
  have hinv := narr_listeners_reachable synth ops
  refine ⟨enableT_idem synth _, enableF_idem synth _ hinv, ?_, ?_⟩
  · simp only [narrStep, enableReaderN, if_true, if_false]
    rw [speak_listeners]
    rcases hinv with h | h <;> simp [h, addListener]
  · simp only [narrStep, enableReaderN, if_true, if_false]
    rw [stopSpeech_listeners]
    rcases hinv with h | h <;> simp [h]

/-- C9: for either value of the urgency flag, `announce` first clears
the targeted live region (assertive when urgent, else polite)
synchronously and sets the new text at the next animation frame, so
announcing the same non-empty message twice (waiting for the frame in
between, as the scheduler does) records for the second announcement a
clear write and a set write on that region, both of which actually
change the text (`m → ""` then `"" → m`); when the targeted region
element is absent, `announce` leaves the state untouched for either
flag. -/
theorem announce_clear_then_set (st : AnnState) (m : String) (isAlert : Bool)
    (h1 : targetPresent isAlert st = true) (h2 : m ≠ "") (h3 : st.pending = []) :
    targetText isAlert (frame (announceA m isAlert st)) = m ∧
    (frame (announceA m isAlert (frame (announceA m isAlert st)))).writes
      = (frame (announceA m isAlert st)).writes
          ++ [(isAlert, m, ""), (isAlert, "", m)] ∧
    (∀ w ∈ [(isAlert, m, ""), (isAlert, "", m)], w.2.1 ≠ w.2.2) ∧
    (∀ (s : AnnState) (t : String) (u : Bool), targetPresent u s = false →
      announceA t u s = s) := by
  have habs : ∀ (s : AnnState) (t : String) (u : Bool), targetPresent u s = false →
      announceA t u s = s := by
    intro s t u hu
    cases u with
    | false =>
      have hn : s.notifPresent = false := by simpa [targetPresent] using hu
      simp [announceA, hn]
    | true =>
      have ha : s.alertPresent = false := by simpa [targetPresent] using hu
      simp [announceA, ha]
  have hmem : ∀ w ∈ [(isAlert, m, ""), (isAlert, "", m)], w.2.1 ≠ w.2.2 := by
    intro w hw
    rcases List.mem_cons.mp hw with h | h
    · rw [h]
      exact h2
    · rcases List.mem_cons.mp h with h | h
      · rw [h]
        exact fun hc => h2 hc.symm
      · cases h
  cases isAlert with
  | false =>
    have h1n : st.notifPresent = true := by simpa [targetPresent] using h1
    refine ⟨?_, ?_, hmem, habs⟩
    · simp [announceA, frame, runFrameCb, targetText, h1n, h3]
    · simp [announceA, frame, runFrameCb, h1n, h3]
  | true =>
    have h1a : st.alertPresent = true := by simpa [targetPresent] using h1
    refine ⟨?_, ?_, hmem, habs⟩
    · simp [announceA, frame, runFrameCb, targetText, h1a, h3]
    · simp [announceA, frame, runFrameCb, h1a, h3]

/-- Witness for C9 at a concrete state and message, exercised for both
the polite and the assertive region. -/
theorem announce_clear_then_set_witness :
    targetText false (frame (announceA "Hola" false ⟨true, false, "", "", [], []⟩))
      = "Hola" ∧
    targetText true (frame (announceA "Hola" true ⟨false, true, "", "", [], []⟩))
      = "Hola" :=
  ⟨(announce_clear_then_set ⟨true, false, "", "", [], []⟩ "Hola" false rfl
      (by decide) rfl).1,
   (announce_clear_then_set ⟨false, true, "", "", [], []⟩ "Hola" true rfl
      (by decide) rfl).1⟩

/-- C10 is false: `getLabel` is not always non-empty.  An element whose
`aria-labelledby` resolves to an element with whitespace-only text makes
`getLabel` return `""` even though the own text of the element is non-empty,
and the empty-label guard in `readerFocus` is then reached (no
utterance), so the guard is not unreachable. -/
theorem getLabel_empty_counterexample :
    getLabel [⟨"P", "lb", [], "  ", "", ""⟩]
      ⟨"SPAN", "", [("aria-labelledby", "lb")], "Hola", "", ""⟩ = "" ∧
    readerFocusMsg [⟨"P", "lb", [], "  ", "", ""⟩]
      ⟨"SPAN", "", [("aria-labelledby", "lb")], "Hola", "", ""⟩ = none := by
  refine ⟨by decide, by decide⟩

theorem jsOr_ne_empty (a : String) {b : String} (hb : b ≠ "") : jsOr a b ≠ "" := by
  unfold jsOr
  split
  · exact hb
  · assumption

theorem jsToLower_ne_empty {s : String} (h : s ≠ "") : jsToLower s ≠ "" := by
  intro hc
  apply h
  have hdata : s.data.map Char.toLower = [] := congrArg String.data hc
  have hnil : s.data = [] := List.map_eq_nil_iff.mp hdata
  cases s with
  | mk data =>
    rw [show data = [] from hnil]

/-- C10 (amended): the final fallback of `getLabel` is indeed non-empty
(trimmed own text truncated to 180 characters, else the lowercased tag
name), and `getLabel` returns a non-empty string whenever the
`aria-labelledby` branch does not apply and, for inputs, no associated
label element exists; the `aria-labelledby` and input-label branches,
however, return the trimmed text of the referenced element verbatim, which
can be empty — so the empty-label guard in `readerFocus` is reachable
(counterexample). -/
theorem getLabel_nonempty (doc : Doc) (el : Elem)
    (htag : el.tagName ≠ "")
    (hlb : truthyS (getAttr el "aria-labelledby") = false)
    (hinput : el.tagName = "INPUT" → labelFor doc el.idAttr = none) :
    getLabel doc el ≠ "" := by
  have htail : getLabelTail doc el ≠ "" := by
    unfold getLabelTail
    by_cases himg : (el.tagName == "IMG") = true
    · rw [if_pos himg]
      exact jsOr_ne_empty _ (by decide)
    · rw [if_neg himg]
      by_cases hin : (el.tagName == "INPUT") = true
      · rw [if_pos hin, hinput (by simpa using hin)]
        exact jsOr_ne_empty _ (jsOr_ne_empty _ (by decide))
      · rw [if_neg hin]
        exact jsOr_ne_empty _ (jsToLower_ne_empty htag)
  unfold getLabel
  by_cases hal : truthyS (getAttr el "aria-label") = true
  · rw [if_pos hal]
    cases hopt : getAttr el "aria-label" with
    | none =>
      rw [hopt] at hal
      simp [truthyS] at hal
    | some str =>
      rw [hopt] at hal
      have hs : str ≠ "" := by simpa [truthyS] using hal
      simpa using hs
  · rw [if_neg hal, if_neg (by simp [hlb])]
    exact htail

/-- Witness for the amended C10 theorem: a plain element with no
attributes and empty text still gets a non-empty label (its tag name). -/
theorem getLabel_nonempty_witness :
    getLabel [] ⟨"DIV", "", [], "", "", ""⟩ ≠ "" :=
  getLabel_nonempty [] ⟨"DIV", "", [], "", "", ""⟩ (by decide) rfl (fun _ => rfl)

/-- C4 is false on the code: `Object.assign({}, defaults, loadPrefs())`
copies every own field of the loaded object, so a stored record with the
extra field `evil` yields a merged in-memory record that still contains
`evil`, and saving that record re-persists it (second conjunct: the
extra field survives a save/load round trip). -/
theorem extra_field_carried_counterexample :
    objGet (mergedPrefs (.stored (.jobj [("fontScale", Json.jnum 1), ("evil", Json.jbool true)])))
      "evil" = some (Json.jbool true) ∧
    objGet (mergedPrefs (savePrefs
      (.jobj (mergedPrefs (.stored (.jobj [("fontScale", Json.jnum 1), ("evil", Json.jbool true)]))))
      .absent)) "evil" = some (Json.jbool true) :=
  ⟨rfl, rfl⟩

/-- C4 (amended): the record constructed at load always contains the
seven schema fields (missing ones resolve to defaults), but extra
unknown fields in a stored object are NOT dropped: they are carried
into the in-memory record (and `savePrefs` then re-persists the whole
record, extras included). -/
theorem merged_schema_fields_and_extras (st : StorageSt) (fs : List (String × Json)) :
    (∀ k, k ∈ defaultsJ.map Prod.fst → (objGet (mergedPrefs st) k).isSome = true) ∧
    (∀ k v, (k, v) ∈ fs →
      (objGet (mergedPrefs (.stored (.jobj fs))) k).isSome = true) := by
  constructor
  · intro k hk
    obtain ⟨⟨k₀, v₀⟩, hmem, hk₀⟩ := List.mem_map.mp hk
    apply isSome_objGet_objAssign
    exact hk₀ ▸ isSome_objGet_objAssign_of_mem defaultsJ [] k₀ v₀ hmem
  · intro k v hmem
    exact isSome_objGet_objAssign_of_mem fs (objAssign [] defaultsJ) k v hmem

/-- Witness for the amended C4 theorem at concrete inputs. -/
theorem merged_schema_fields_and_extras_witness :
    (objGet (mergedPrefs .absent) "fontScale").isSome = true ∧
    (objGet (mergedPrefs (.stored (.jobj [("x", Json.jnull)]))) "x").isSome = true :=
  ⟨(merged_schema_fields_and_extras .absent []).1 "fontScale" (by simp [defaultsJ]),
   (merged_schema_fields_and_extras .absent [("x", Json.jnull)]).2 "x" .jnull (by simp)⟩

/-- C1 fails at page load: the merge does not sanitize parseable storage
content, so a stored `fontScale` of `99` is carried into the merged
record unclamped, violating the invariant. -/
theorem load_unclamped_counterexample :
    objGet (mergedPrefs (.stored (.jobj [("fontScale", Json.jnum 99)]))) "fontScale"
      = some (Json.jnum 99) ∧
    ¬ prefsInvJson (mergedPrefs (.stored (.jobj [("fontScale", Json.jnum 99)]))) := by
  refine ⟨rfl, ?_⟩
  rintro ⟨⟨n, hn, -, hle⟩, -⟩
  have h9 : some (Json.jnum 99) = some (Json.jnum n) := by
    rw [← hn]
    rfl
  have h99 : (99 : Int) = n := by
    injection h9 with h9a
    injection h9a
  omega

theorem prefsInv_dispatch (a : PAction) (st : SysState) (h : prefsInv st.prefs) :
    prefsInv (dispatch a st).prefs := by
  obtain ⟨h1, h2, h3⟩ := h
  cases a with
  | reader => exact ⟨h1, h2, h3⟩
  | fontInc =>
    simp only [dispatch]
    split
    · exact ⟨h1, h2, h3⟩
    · next hg =>
      exact ⟨by show -2 ≤ st.prefs.fontScale + 1; omega,
             by show st.prefs.fontScale + 1 ≤ 2; omega, h3⟩
  | fontDec =>
    simp only [dispatch]
    split
    · exact ⟨h1, h2, h3⟩
    · next hg =>
      exact ⟨by show -2 ≤ st.prefs.fontScale - 1; omega,
             by show st.prefs.fontScale - 1 ≤ 2; omega, h3⟩
  | contrastA v =>
    refine ⟨h1, h2, ?_⟩
    show v.key ∈ contrastVals
    cases v <;> decide
  | spacingA => exact ⟨h1, h2, h3⟩
  | dyslexiaA => exact ⟨h1, h2, h3⟩
  | linksA => exact ⟨h1, h2, h3⟩
  | cursorA => exact ⟨h1, h2, h3⟩
  | reset =>
    have hdef : prefsInv defaultsP := ⟨by decide, by decide, by decide⟩
    exact hdef

theorem prefsInv_click (c : Click) (st : SysState) (h : prefsInv st.prefs) :
    prefsInv (click c st).prefs := by
  cases c with
  | fab => exact h
  | escape =>
    simp only [click]
    split
    · exact h
    · exact h
  | closeBtn =>
    simp only [click]
    split
    · exact h
    · exact h
  | onAction a =>
    simp only [click]
    split
    · exact prefsInv_dispatch a st h
    · exact h

/-- C1 (amended): the invariant `fontScale ∈ [-2,2]` and
`contrast ∈ {normal, high, dark, invert}` holds for the default record
and is preserved by every sequence of panel clicks; the record built at
page load, however, carries out-of-range parseable storage content
through unclamped (see the counterexample), so the invariant holds for
reachable records only when the initial merged record satisfies it. -/
theorem prefsInv_reachable (p₀ : Prefs) (s₀ : Option Prefs) (cs : List Click)
    (h : prefsInv p₀) : prefsInv (runClicks cs (initState p₀ s₀)).prefs := by
  unfold runClicks
  exact foldl_preserves _ (fun s => prefsInv s.prefs)
    (fun s c hs => prefsInv_click c s hs) cs (initState p₀ s₀) h

/-- Witness for the amended C1 theorem: defaults are valid and stay valid
after a click. -/
theorem prefsInv_reachable_witness :
    prefsInv defaultsP ∧
    prefsInv (runClicks [Click.onAction .fontInc] (initState defaultsP none)).prefs :=
  ⟨⟨by decide, by decide, by decide⟩,
   prefsInv_reachable defaultsP none [Click.onAction .fontInc]
     ⟨by decide, by decide, by decide⟩⟩

/-- Witness for C3 at a concrete valid record. -/
theorem save_load_roundtrip_witness :
    validRec 1 "dark" ∧
    Json.jobj (mergedPrefs (savePrefs (mkRecord 1 "dark" true false true false true) .absent))
      = mkRecord 1 "dark" true false true false true :=
  ⟨⟨by decide, by decide, by decide⟩,
    (save_load_roundtrip .absent 1 "dark" true false true false true
      ⟨by decide, by decide, by decide⟩).1⟩
